import Mathlib

/-!
Shallow embedding of `src/delete.py`, the Cloudflare R2 bucket cleanup
script, together with theorems about its listing, filtering, chunking and
deletion behaviour.

The script's externals (the S3-compatible store and the operator's console
input) are modelled as explicit parameters:
* the listing API is a function from an optional continuation token to
  either a page response or a client error;
* the bulk-delete API is a function from the batch index to either a client
  error or a response carrying a deleted-keys list and a per-key error list;
* the confirmation prompt's input is a plain string.
All functions below are direct translations of the corresponding Python
functions, keeping their names.
-/

/-- An object entry as returned by the store's listing API; the script uses
the fields `Key` and `Size`. -/
structure Obj where
  Key : String
  Size : Nat
deriving DecidableEq

/-- One response of the paginated `list_objects_v2` call: a page of entries,
the truncation flag, and the optional next continuation token. -/
structure ListResponse where
  Contents : List Obj
  IsTruncated : Bool
  NextContinuationToken : Option String
deriving DecidableEq

/-- The fixed deletion batch size `batch_size = 1000` set at line 177 of
`clean_bucket` (the AWS S3 per-request limit). -/
def batch_size : Nat := 1000

/-- Fuel-indexed helper for the chunking below: with fuel at least the
list's length (and a positive `B`) it repeatedly takes a prefix of length
`B` and recurses on the rest.  Structural recursion on the fuel keeps
concrete instances kernel-evaluable. -/
def chunksOfAux (B : Nat) : Nat → List Obj → List (List Obj)
  | 0, _ => []
  | fuel + 1, xs => if xs = [] then [] else xs.take B :: chunksOfAux B fuel (xs.drop B)

/-- The contiguous slicing performed by the delete loop of `clean_bucket`
(lines 180-181): `objects_to_delete[i:i+batch_size]` for
`i = 0, B, 2B, ...`.  The list's own length is enough fuel, since every
step removes at least one element when `B` is positive (in the script `B`
is the constant 1000). -/
def chunksOf (B : Nat) (xs : List Obj) : List (List Obj) :=
  chunksOfAux B xs.length xs

theorem chunksOfAux_nil (B : Nat) : ∀ fuel, chunksOfAux B fuel [] = [] := by
  intro fuel
  cases fuel <;> simp [chunksOfAux]

theorem chunksOfAux_fuel (B : Nat) (hB : B ≠ 0) :
    ∀ (n m : Nat) (xs : List Obj), xs.length ≤ n → xs.length ≤ m →
      chunksOfAux B n xs = chunksOfAux B m xs := by
  intro n
  induction n with
  | zero =>
    intro m xs hn hm
    have hxs : xs = [] := by
      cases xs with
      | nil => rfl
      | cons a as => simp at hn
    subst hxs
    simp [chunksOfAux_nil]
  | succ n ih =>
    intro m xs hn hm
    by_cases h : xs = []
    · subst h
      simp [chunksOfAux_nil]
    · have h1 : xs.length ≠ 0 := by simpa [List.length_eq_zero] using h
      cases m with
      | zero => omega
      | succ m =>
        simp only [chunksOfAux, if_neg h]
        rw [ih m (xs.drop B) (by simp only [List.length_drop]; omega)
          (by simp only [List.length_drop]; omega)]

theorem chunksOf_nil (B : Nat) : chunksOf B [] = [] := rfl

theorem chunksOf_cons (B : Nat) (xs : List Obj) (h : xs ≠ []) (hB : B ≠ 0) :
    chunksOf B xs = xs.take B :: chunksOf B (xs.drop B) := by
  have h1 : xs.length ≠ 0 := by simpa [List.length_eq_zero] using h
  unfold chunksOf
  cases hl : xs.length with
  | zero => omega
  | succ l =>
    simp only [chunksOfAux, if_neg h]
    rw [chunksOfAux_fuel B hB l (xs.drop B).length (xs.drop B)
      (by simp only [List.length_drop]; omega) le_rfl]
theorem chunksOf_join (B : Nat) (hB : B ≠ 0) :
    ∀ (n : Nat) (xs : List Obj), xs.length ≤ n → (chunksOf B xs).flatten = xs := by
  intro n
  induction n with
  | zero =>
    intro xs hx
    have hxs : xs = [] := by
      cases xs with
      | nil => rfl
      | cons a as => simp at hx
    subst hxs
    simp [chunksOf_nil]
  | succ n ih =>
    intro xs hx
    by_cases h : xs = []
    · subst h
      simp [chunksOf_nil]
    · rw [chunksOf_cons B xs h hB]
      have h1 : xs.length ≠ 0 := by simpa [List.length_eq_zero] using h
      have hdrop : (xs.drop B).length ≤ n := by
        simp only [List.length_drop]
        omega
      rw [List.flatten_cons, ih (xs.drop B) hdrop]
      exact List.take_append_drop B xs

theorem chunksOf_count :
    ∀ (n : Nat) (xs : List Obj), xs.length ≤ n →
      (chunksOf batch_size xs).length = (xs.length + (batch_size - 1)) / batch_size := by
  intro n
  induction n with
  | zero =>
    intro xs hx
    have hxs : xs = [] := by
      cases xs with
      | nil => rfl
      | cons a as => simp at hx
    subst hxs
    simp [chunksOf_nil, batch_size]
  | succ n ih =>
    intro xs hx
    by_cases h : xs = []
    · subst h
      simp [chunksOf_nil, batch_size]
    · rw [chunksOf_cons batch_size xs h (by simp [batch_size])]
      have h1 : xs.length ≠ 0 := by simpa [List.length_eq_zero] using h
      have hdrop : (xs.drop batch_size).length ≤ n := by
        simp only [List.length_drop, batch_size]
        omega
      rw [List.length_cons, ih (xs.drop batch_size) hdrop]
      simp only [List.length_drop, batch_size]
      omega

theorem chunksOf_sizes (B : Nat) (hB : B ≠ 0) :
    ∀ (n : Nat) (xs : List Obj), xs.length ≤ n →
      ∀ c ∈ chunksOf B xs, c.length ≤ B := by
  intro n
  induction n with
  | zero =>
    intro xs hx c hc
    have hxs : xs = [] := by
      cases xs with
      | nil => rfl
      | cons a as => simp at hx
    subst hxs
    simp [chunksOf_nil] at hc
  | succ n ih =>
    intro xs hx c hc
    by_cases h : xs = []
    · subst h
      simp [chunksOf_nil] at hc
    · rw [chunksOf_cons B xs h hB] at hc
      rcases List.mem_cons.mp hc with hc | hc
      · subst hc
        simpa using List.length_take_le B xs
      · have h1 : xs.length ≠ 0 := by simpa [List.length_eq_zero] using h
        exact ih (xs.drop B) (by simp only [List.length_drop]; omega) c hc

/-- Outcome of one `delete_objects` API call: either a raised `ClientError`,
or a response carrying the `Deleted` key list and the `Errors` list of
key/message pairs. -/
inductive BatchCallResult where
  | clientError
  | ok (Deleted : List String) (Errors : List (String × String))
deriving DecidableEq

/-- Translation of `R2BucketCleaner.delete_objects_batch` (lines 78-110).
An empty input returns `True` without issuing the API call; otherwise the
call's outcome decides the result: a `ClientError` yields `False`, a
response with a nonempty `Errors` list yields `False`, and only a response
whose `Errors` list is empty yields `True`. -/
def delete_objects_batch (objects : List Obj) (call : BatchCallResult) : Bool :=
  if objects.isEmpty then true
  else
    match call with
    | .clientError => false
    | .ok _ errors => errors.isEmpty

/-- The deletion loop of `clean_bucket` (lines 180-191) over the already
chunked input, each chunk paired with its API call's outcome: it records the
per-batch success booleans in order and accumulates `total_deleted`, adding
the full chunk length exactly when `delete_objects_batch` returned `True`.
The `time.sleep` between batches has no observable effect in this model. -/
def deleteLoop : List (List Obj × BatchCallResult) → List Bool × Nat
  | [] => ([], 0)
  | (batch, call) :: rest =>
    let ok := delete_objects_batch batch call
    let r := deleteLoop rest
    (ok :: r.1, (if ok then batch.length else 0) + r.2)

/-- Python `str.strip()` over the character list: drop whitespace from both
ends.  Structural, so concrete instances evaluate in the kernel. -/
def strip (s : String) : String :=
  ⟨((s.data.dropWhile Char.isWhitespace).reverse.dropWhile Char.isWhitespace).reverse⟩

/-- Python `str.lower()` over the character list. -/
def lower (s : String) : String :=
  ⟨s.data.map Char.toLower⟩

/-- Python `str.endswith(suffix)` over the character list. -/
def endswith (s suffix : String) : Bool :=
  suffix.data.isSuffixOf s.data

/-- The image-extension set of `filter_images` (lines 114-117). -/
def image_extensions : List String :=
  [".jpg", ".jpeg", ".png", ".gif", ".bmp", ".tiff", ".tif",
   ".webp", ".svg", ".ico", ".avif", ".heic", ".heif"]

/-- The per-object test of `filter_images` (lines 121-122): lower-case the
key and test whether it ends with any recognized extension. -/
def isImageKey (key : String) : Bool :=
  image_extensions.any (fun ext => endswith (lower key) ext)

/-- Translation of `R2BucketCleaner.filter_images` (lines 112-126): the
append loop keeps, in order, exactly the objects whose key passes
`isImageKey`. -/
def filter_images (objects : List Obj) : List Obj :=
  objects.filter (fun obj => isImageKey obj.Key)

/-- Python truthiness of the continuation token at line 54
(`if continuation_token:`) — the request carries a token only when the
stored value is neither `None` nor the empty string. -/
def effectiveToken : Option String → Option String
  | none => none
  | some t => if t = "" then none else some t

/-- The pagination loop of `list_all_objects` (lines 47-69), with explicit
fuel for the unbounded `while True`.  The store maps the request's effective
continuation token to a page response or a `ClientError`.  Each iteration
appends the returned `Contents` to the accumulator; a false `IsTruncated`
flag stops and returns the accumulator; a `ClientError` anywhere makes the
whole function return the empty list (lines 71-73), discarding the
accumulator.  `none` means the fuel ran out while the loop was still
running. -/
def listLoop (store : Option String → Except Unit ListResponse) :
    Nat → List Obj → Option String → Option (List Obj)
  | 0, _, _ => none
  | fuel + 1, acc, tok =>
    match store (effectiveToken tok) with
    | .error _ => some []
    | .ok r =>
      if r.IsTruncated then listLoop store fuel (acc ++ r.Contents) r.NextContinuationToken
      else some (acc ++ r.Contents)

/-- Translation of `R2BucketCleaner.list_all_objects` (lines 39-76): run the
pagination loop from an empty accumulator and an absent token. -/
def list_all_objects (store : Option String → Except Unit ListResponse)
    (fuel : Nat) : Option (List Obj) :=
  listLoop store fuel [] none

/-- How a `clean_bucket` run ended, one case per `return`/fall-through path
of lines 128-193, matching its final console report. -/
inductive ExitKind where
  | emptyListing
  | emptyFiltered
  | dryRunStop
  | cancelled
  | completed
deriving DecidableEq

/-- Observable outcome of a `clean_bucket` run: which path ended it, whether
the confirmation prompt was reached, how many `delete_objects_batch` calls
were made, the reported `total_deleted` tally, and the per-batch success
booleans in order. -/
structure CleanOutcome where
  exit : ExitKind
  promptShown : Bool
  deleteCalls : Nat
  totalDeleted : Nat
  reports : List Bool
deriving DecidableEq

/-- The body of `R2BucketCleaner.clean_bucket` after the listing step
(lines 143-193): empty listing and empty filtered subset return early
(lines 143-152), `dry_run` returns before the prompt (lines 163-165), a
stripped confirmation input other than the literal DELETE cancels
(lines 169-173), and otherwise the chunked deletion loop runs, the call for
chunk `i` getting the `i`-th API outcome. -/
def cleanBucketFrom (images_only dry_run : Bool) (all_objects : List Obj)
    (confirm : String) (calls : Nat → BatchCallResult) : CleanOutcome :=
  if all_objects.isEmpty then ⟨.emptyListing, false, 0, 0, []⟩
  else
    let objects_to_delete := if images_only then filter_images all_objects else all_objects
    if objects_to_delete.isEmpty then ⟨.emptyFiltered, false, 0, 0, []⟩
    else if dry_run then ⟨.dryRunStop, false, 0, 0, []⟩
    else if strip confirm ≠ "DELETE" then ⟨.cancelled, true, 0, 0, []⟩
    else
      let chunks := chunksOf batch_size objects_to_delete
      let r := deleteLoop (chunks.enum.map (fun p => (p.2, calls p.1)))
      ⟨.completed, true, chunks.length, r.2, r.1⟩

/-- The environment of one `clean_bucket` run: the store's listing behaviour,
fuel for the pagination loop, the operator's raw input at the confirmation
prompt, and the store's behaviour on each bulk-delete call. -/
structure Env where
  store : Option String → Except Unit ListResponse
  fuel : Nat
  confirm : String
  calls : Nat → BatchCallResult

/-- Translation of `R2BucketCleaner.clean_bucket` (lines 128-193): list all
objects, then run the rest of the body on the result.  `none` means the
pagination loop ran out of fuel. -/
def clean_bucket (images_only dry_run : Bool) (env : Env) : Option CleanOutcome :=
  (list_all_objects env.store env.fuel).map
    (fun all_objects => cleanBucketFrom images_only dry_run all_objects env.confirm env.calls)

/-- A well-formed page sequence for a store, starting from a given stored
token: each page but the last is truncated and the store maps its (Python
truthiness adjusted) next token to the following page; the last page is not
truncated. -/
def goodChain (store : Option String → Except Unit ListResponse) :
    Option String → List ListResponse → Prop
  | _, [] => False
  | tok, [r] => store (effectiveToken tok) = .ok r ∧ r.IsTruncated = false
  | tok, r :: r2 :: rest =>
      store (effectiveToken tok) = .ok r ∧ r.IsTruncated = true ∧
        goodChain store r.NextContinuationToken (r2 :: rest)

/-- A page sequence that ends in a transport failure: every listed page is
truncated and chains to the next, and the request after the last listed page
raises a `ClientError`. -/
def errChain (store : Option String → Except Unit ListResponse) :
    Option String → List ListResponse → Prop
  | tok, [] => store (effectiveToken tok) = .error ()
  | tok, r :: rest =>
      store (effectiveToken tok) = .ok r ∧ r.IsTruncated = true ∧
        errChain store r.NextContinuationToken rest

theorem listLoop_goodChain (store : Option String → Except Unit ListResponse) :
    ∀ (chain : List ListResponse) (tok : Option String) (acc : List Obj) (fuel : Nat),
      goodChain store tok chain → chain.length ≤ fuel →
      listLoop store fuel acc tok = some (acc ++ (chain.map (fun r => r.Contents)).flatten) := by
  intro chain
  induction chain with
  | nil => intro tok acc fuel hg; exact absurd hg id
  | cons r rest ih =>
    intro tok acc fuel hg hlen
    cases fuel with
    | zero => simp at hlen
    | succ fuel =>
      cases rest with
      | nil =>
        rcases hg with ⟨hreq, htr⟩
        simp [listLoop, hreq, htr]
      | cons r2 rest2 =>
        rcases hg with ⟨hreq, htr, hchain⟩
        have hlen2 : (r2 :: rest2).length ≤ fuel := by
          simp at hlen ⊢
          omega
        simp only [listLoop, hreq, htr, if_true]
        rw [ih r.NextContinuationToken (acc ++ r.Contents) fuel hchain hlen2]
        simp

theorem listLoop_errChain (store : Option String → Except Unit ListResponse) :
    ∀ (chain : List ListResponse) (tok : Option String) (acc : List Obj) (fuel : Nat),
      errChain store tok chain → chain.length + 1 ≤ fuel →
      listLoop store fuel acc tok = some [] := by
  intro chain
  induction chain with
  | nil =>
    intro tok acc fuel herr hlen
    cases fuel with
    | zero => simp at hlen
    | succ fuel =>
      simp only [errChain] at herr
      simp [listLoop, herr]
  | cons r rest ih =>
    intro tok acc fuel hg hlen
    cases fuel with
    | zero => simp at hlen
    | succ fuel =>
      rcases hg with ⟨hreq, htr, hchain⟩
      simp only [listLoop, hreq, htr, if_true]
      exact ih r.NextContinuationToken (acc ++ r.Contents) fuel hchain (by simp at hlen ⊢; omega)

theorem deleteLoop_reports (l : List (List Obj × BatchCallResult)) :
    (deleteLoop l).1 = l.map (fun p => delete_objects_batch p.1 p.2) := by
  induction l with
  | nil => rfl
  | cons p rest ih => simp [deleteLoop, ih]

/-- The tally one batch contributes in the source: the full chunk size when
its call raised no `ClientError` and its response carried no per-key error,
and zero otherwise (an empty chunk contributes its size, zero, either way). -/
def batchTally (p : List Obj × BatchCallResult) : Nat :=
  if p.1.isEmpty then 0
  else
    match p.2 with
    | .clientError => 0
    | .ok _ errors => if errors.isEmpty then p.1.length else 0

/-- The count the spec's words describe: keys confirmed deleted in the batch
responses, i.e. the total length of the `Deleted` lists of the responses
that arrived (a `ClientError` call confirms nothing). -/
def confirmedDeletions (l : List (List Obj × BatchCallResult)) : Nat :=
  (l.map (fun p =>
    match p.2 with
    | .clientError => 0
    | .ok deleted _ => deleted.length)).sum

theorem deleteLoop_tally (l : List (List Obj × BatchCallResult)) :
    (deleteLoop l).2 = (l.map batchTally).sum := by
  induction l with
  | nil => rfl
  | cons p rest ih =>
    rcases p with ⟨batch, call⟩
    simp only [deleteLoop, List.map_cons, List.sum_cons, ih]
    by_cases hb : batch.isEmpty
    · have : batch = [] := by simpa [List.isEmpty_iff] using hb
      subst this
      cases call <;> simp [delete_objects_batch, batchTally]
    · cases call with
      | clientError => simp [delete_objects_batch, batchTally, hb]
      | ok deleted errors =>
        by_cases he : errors.isEmpty <;>
          simp [delete_objects_batch, batchTally, hb, he]

/-- C1: the delete phase of `clean_bucket` splits any list of `N` objects,
with `batch_size = 1000`, into exactly `(N + 999) / 1000 = ⌈N / 1000⌉`
contiguous chunks, each of length at most 1000, whose concatenation is the
input list itself — so every key occurs in exactly one chunk, with no
duplication and no omission. -/
theorem delete_phase_partitions (objs : List Obj) :
    (chunksOf batch_size objs).length = (objs.length + (batch_size - 1)) / batch_size ∧
    (∀ c ∈ chunksOf batch_size objs, c.length ≤ batch_size) ∧
    (chunksOf batch_size objs).flatten = objs :=
  ⟨chunksOf_count objs.length objs le_rfl,
   chunksOf_sizes batch_size (by simp [batch_size]) objs.length objs le_rfl,
   chunksOf_join batch_size (by simp [batch_size]) objs.length objs le_rfl⟩

theorem delete_phase_partitions_witness :
    (chunksOf batch_size [⟨"a.jpg", 1⟩, ⟨"b.png", 2⟩]).length
      = (([⟨"a.jpg", 1⟩, ⟨"b.png", 2⟩] : List Obj).length + (batch_size - 1)) / batch_size ∧
    ([⟨"a.jpg", 1⟩, ⟨"b.png", 2⟩] : List Obj).length ≤ batch_size ∧
    (chunksOf batch_size [⟨"a.jpg", 1⟩, ⟨"b.png", 2⟩]).flatten
      = [⟨"a.jpg", 1⟩, ⟨"b.png", 2⟩] :=
  ⟨(delete_phase_partitions _).1,
   (delete_phase_partitions [⟨"a.jpg", 1⟩, ⟨"b.png", 2⟩]).2.1
     [⟨"a.jpg", 1⟩, ⟨"b.png", 2⟩] (by decide),
   (delete_phase_partitions _).2.2⟩

/-- C2: the deletion loop of `clean_bucket` never aborts on a chunk-level
transport failure: every chunk in the sequence is attempted and its result
recorded, each result depending only on that chunk's own call outcome; in
particular, with three chunks where the second raises a `ClientError`,
chunks 1 and 3 are still attempted and reported successful. -/
theorem delete_loop_continues_after_failure :
    (∀ l : List (List Obj × BatchCallResult),
        (deleteLoop l).1 = l.map (fun p => delete_objects_batch p.1 p.2)) ∧
    deleteLoop [([⟨"a.jpg", 1⟩], .ok ["a.jpg"] []),
                ([⟨"b.jpg", 1⟩], .clientError),
                ([⟨"c.jpg", 1⟩], .ok ["c.jpg"] [])]
      = ([true, false, true], 2) :=
  ⟨deleteLoop_reports, by decide⟩

theorem delete_loop_continues_after_failure_witness :
    (deleteLoop [([⟨"a.jpg", 1⟩], BatchCallResult.clientError)]).1
      = [delete_objects_batch [⟨"a.jpg", 1⟩] BatchCallResult.clientError] :=
  delete_loop_continues_after_failure.1 [([⟨"a.jpg", 1⟩], BatchCallResult.clientError)]

/-- C3 counterexample: one batch of two objects whose response confirms the
key a.jpg deleted but reports a per-key error for b.jpg.
`delete_objects_batch` returns `False` on a nonempty `Errors` list, so the
loop adds nothing for the batch: the reported total is 0 while the number
of keys confirmed deleted in the responses is 1 — the reported tally is not
the number of confirmed deletions. -/
theorem reported_tally_counterexample :
    (deleteLoop [([⟨"a.jpg", 1⟩, ⟨"b.jpg", 1⟩],
        .ok ["a.jpg"] [("b.jpg", "AccessDenied")])]).2 = 0 ∧
    confirmedDeletions [([⟨"a.jpg", 1⟩, ⟨"b.jpg", 1⟩],
        .ok ["a.jpg"] [("b.jpg", "AccessDenied")])] = 1 ∧
    (deleteLoop [([⟨"a.jpg", 1⟩, ⟨"b.jpg", 1⟩],
        .ok ["a.jpg"] [("b.jpg", "AccessDenied")])]).2
      ≠ confirmedDeletions [([⟨"a.jpg", 1⟩, ⟨"b.jpg", 1⟩],
        .ok ["a.jpg"] [("b.jpg", "AccessDenied")])] := by
  decide

/-- C3 amended: the tally `clean_bucket` reports is the sum over batches of
`batchTally`: a batch contributes its full size exactly when its call raised
no `ClientError` and its response carried no per-key error, and contributes
zero otherwise — keys confirmed deleted inside a batch whose response also
carries per-key errors are not counted.  Per-key failures still do not halt
the run: every batch is attempted and reported. -/
theorem reported_tally_full_batches (l : List (List Obj × BatchCallResult)) :
    (deleteLoop l).2 = (l.map batchTally).sum ∧ (deleteLoop l).1.length = l.length :=
  ⟨deleteLoop_tally l, by rw [deleteLoop_reports l, List.length_map]⟩

theorem reported_tally_full_batches_witness :
    (deleteLoop [([⟨"a.jpg", 1⟩], BatchCallResult.ok ["a.jpg"] [])]).2
      = ([([⟨"a.jpg", 1⟩], BatchCallResult.ok ["a.jpg"] [])].map batchTally).sum :=
  (reported_tally_full_batches _).1

theorem cleanBucketFrom_dry (io : Bool) (objs : List Obj) (confirm : String)
    (calls : Nat → BatchCallResult) :
    (cleanBucketFrom io true objs confirm calls).deleteCalls = 0 ∧
    (cleanBucketFrom io true objs confirm calls).promptShown = false := by
  unfold cleanBucketFrom
  by_cases h1 : objs.isEmpty
  · simp [h1]
  · by_cases h2 : (if io then filter_images objs else objs).isEmpty
    · simp [h1, h2]
    · simp [h1, h2]

/-- C4: with `dry_run = true`, `clean_bucket` never invokes the delete
operation, whatever `images_only` is and whatever object set the listing
produced: whenever the run terminates, its outcome records zero
`delete_objects_batch` calls, and the confirmation prompt is never shown. -/
theorem dry_run_never_deletes (images_only : Bool) (env : Env) (o : CleanOutcome)
    (h : clean_bucket images_only true env = some o) :
    o.deleteCalls = 0 ∧ o.promptShown = false := by
  unfold clean_bucket at h
  cases hl : list_all_objects env.store env.fuel with
  | none => rw [hl] at h; simp at h
  | some objs =>
    rw [hl] at h
    have h2 : cleanBucketFrom images_only true objs env.confirm env.calls = o := by
      simpa using h
    rw [← h2]
    exact cleanBucketFrom_dry images_only objs env.confirm env.calls

def witnessStore : Option String → Except Unit ListResponse :=
  fun _ => .ok ⟨[⟨"a.jpg", 1⟩], false, none⟩

def witnessEnv : Env := ⟨witnessStore, 1, "DELETE", fun _ => .ok ["a.jpg"] []⟩

theorem dry_run_never_deletes_witness :
    (⟨ExitKind.dryRunStop, false, 0, 0, []⟩ : CleanOutcome).deleteCalls = 0 ∧
    (⟨ExitKind.dryRunStop, false, 0, 0, []⟩ : CleanOutcome).promptShown = false :=
  dry_run_never_deletes false witnessEnv ⟨.dryRunStop, false, 0, 0, []⟩ (by decide)

/-- C5 counterexample: line 169 strips the confirmation input before the
comparison, so an input consisting of the literal DELETE surrounded by
spaces differs from the exact literal, yet deletion proceeds: the run
completes with one delete call and one deletion instead of being cancelled
with none. -/
theorem confirm_exact_literal_counterexample :
    (" DELETE " ≠ "DELETE") ∧
    cleanBucketFrom false false [⟨"a.jpg", 1⟩] " DELETE " (fun _ => .ok ["a.jpg"] [])
      = ⟨.completed, true, 1, 1, [true]⟩ := by
  decide

/-- C5 amended: deletion is gated on the whitespace-stripped input: in a
non-dry-run with a non-empty set of objects to delete, any input whose
stripped form differs from the literal DELETE cancels the run with zero
deletions and no delete call, and the run reaches the delete phase exactly
when the stripped input equals the literal. -/
theorem confirm_stripped_literal_gate (images_only : Bool) (objs : List Obj)
    (confirm : String) (calls : Nat → BatchCallResult)
    (h : (if images_only then filter_images objs else objs) ≠ []) :
    (strip confirm ≠ "DELETE" →
      cleanBucketFrom images_only false objs confirm calls
        = ⟨.cancelled, true, 0, 0, []⟩) ∧
    ((cleanBucketFrom images_only false objs confirm calls).exit = .completed
      ↔ strip confirm = "DELETE") := by
  have hobjs : objs ≠ [] := by
    cases images_only with
    | false => simpa using h
    | true =>
      intro he
      subst he
      simp [filter_images] at h
  constructor
  · intro hs
    unfold cleanBucketFrom
    simp [List.isEmpty_iff, hobjs, h, hs]
  · unfold cleanBucketFrom
    by_cases hs : strip confirm = "DELETE"
    · simp [List.isEmpty_iff, hobjs, h, hs]
    · simp [List.isEmpty_iff, hobjs, h, hs]

theorem confirm_stripped_literal_gate_witness :
    cleanBucketFrom false false [⟨"a.jpg", 1⟩] "delete" (fun _ => .clientError)
      = ⟨.cancelled, true, 0, 0, []⟩ :=
  (confirm_stripped_literal_gate false [⟨"a.jpg", 1⟩] "delete"
    (fun _ => .clientError) (by decide)).1 (by decide)

/-- C6: for every well-formed page sequence presented by the store — the
first request carrying no token, each truncated page's supplied next token
carried forward into the following request, stopping at the first
non-truncated page — `list_all_objects`, given at least as much fuel as
there are pages, returns exactly the concatenation of the pages' `Contents`,
whose size is the sum of the per-page entry counts. -/
theorem list_all_objects_accumulates_pages
    (store : Option String → Except Unit ListResponse)
    (chain : List ListResponse) (fuel : Nat)
    (hchain : goodChain store none chain) (hfuel : chain.length ≤ fuel) :
    list_all_objects store fuel = some ((chain.map (fun r => r.Contents)).flatten) ∧
    ((chain.map (fun r => r.Contents)).flatten).length
      = (chain.map (fun r => r.Contents.length)).sum := by
  constructor
  · simpa [list_all_objects] using
      listLoop_goodChain store chain none [] fuel hchain hfuel
  · rw [List.length_flatten, List.map_map]
    rfl

def pageA : ListResponse := ⟨[⟨"a.jpg", 1⟩, ⟨"b.txt", 2⟩], true, some "t1"⟩

def pageB : ListResponse := ⟨[⟨"c.png", 3⟩], true, some "t2"⟩

def pageC : ListResponse := ⟨[⟨"d.gif", 4⟩], false, none⟩

def pagedStore : Option String → Except Unit ListResponse
  | none => .ok pageA
  | some t => if t = "t1" then .ok pageB else if t = "t2" then .ok pageC else .error ()

theorem list_all_objects_accumulates_pages_witness :
    list_all_objects pagedStore 3
      = some (([pageA, pageB, pageC].map (fun r => r.Contents)).flatten) ∧
    (([pageA, pageB, pageC].map (fun r => r.Contents)).flatten).length
      = ([pageA, pageB, pageC].map (fun r => r.Contents.length)).sum :=
  list_all_objects_accumulates_pages pagedStore [pageA, pageB, pageC] 3
    (by simp [goodChain, pagedStore, effectiveToken, pageA, pageB, pageC])
    (by decide)

/-- C7: if some page request of the listing raises a `ClientError` — after
any number of successfully chained truncated pages — `list_all_objects`
returns the empty list, discarding every entry already accumulated, and the
`clean_bucket` run then takes the empty-listing early return: no prompt, no
delete call, zero reported deletions. -/
theorem listing_failure_discards_and_aborts
    (store : Option String → Except Unit ListResponse)
    (chain : List ListResponse) (fuel : Nat) (confirm : String)
    (calls : Nat → BatchCallResult) (images_only dry_run : Bool)
    (hchain : errChain store none chain) (hfuel : chain.length + 1 ≤ fuel) :
    list_all_objects store fuel = some [] ∧
    clean_bucket images_only dry_run ⟨store, fuel, confirm, calls⟩
      = some ⟨.emptyListing, false, 0, 0, []⟩ := by
  have h1 : list_all_objects store fuel = some [] := by
    simpa [list_all_objects] using
      listLoop_errChain store chain none [] fuel hchain hfuel
  refine ⟨h1, ?_⟩
  unfold clean_bucket
  simp only at h1 ⊢
  rw [h1]
  simp [cleanBucketFrom]

def failingStore : Option String → Except Unit ListResponse
  | none => .ok pageA
  | some _ => .error ()

theorem listing_failure_discards_and_aborts_witness :
    list_all_objects failingStore 2 = some [] ∧
    clean_bucket false false ⟨failingStore, 2, "DELETE", fun _ => .ok [] []⟩
      = some ⟨.emptyListing, false, 0, 0, []⟩ :=
  listing_failure_discards_and_aborts failingStore [pageA] 2 "DELETE"
    (fun _ => .ok [] []) false false
    (by simp [errChain, failingStore, effectiveToken, pageA])
    (by decide)

/-- C8: an empty listing, or an empty filtered subset under `images_only`,
makes `clean_bucket` short-circuit with zero deletions: the confirmation
prompt is not shown, no delete call is made, and the reported total is
zero. -/
theorem empty_input_short_circuits (images_only dry_run : Bool) (objs : List Obj)
    (confirm : String) (calls : Nat → BatchCallResult)
    (h : objs = [] ∨ (images_only = true ∧ filter_images objs = [])) :
    (cleanBucketFrom images_only dry_run objs confirm calls).promptShown = false ∧
    (cleanBucketFrom images_only dry_run objs confirm calls).deleteCalls = 0 ∧
    (cleanBucketFrom images_only dry_run objs confirm calls).totalDeleted = 0 ∧
    ((cleanBucketFrom images_only dry_run objs confirm calls).exit = .emptyListing ∨
     (cleanBucketFrom images_only dry_run objs confirm calls).exit = .emptyFiltered) := by
  rcases h with h | ⟨hio, hf⟩
  · subst h
    simp [cleanBucketFrom]
  · subst hio
    by_cases ho : objs.isEmpty
    · simp [cleanBucketFrom, ho]
    · simp [cleanBucketFrom, ho, hf]

theorem empty_input_short_circuits_witness :
    (cleanBucketFrom false false [] "DELETE" (fun _ => .ok [] [])).promptShown = false ∧
    (cleanBucketFrom false false [] "DELETE" (fun _ => .ok [] [])).deleteCalls = 0 ∧
    (cleanBucketFrom false false [] "DELETE" (fun _ => .ok [] [])).totalDeleted = 0 ∧
    ((cleanBucketFrom false false [] "DELETE" (fun _ => .ok [] [])).exit = .emptyListing ∨
     (cleanBucketFrom false false [] "DELETE" (fun _ => .ok [] [])).exit = .emptyFiltered) :=
  empty_input_short_circuits false false [] "DELETE" (fun _ => .ok [] []) (Or.inl rfl)

/-- C9: `filter_images` is a pure function of the input sequence that
selects exactly the objects whose lower-cased key ends with one of the
thirteen recognized image extensions; it is idempotent, and on the empty
list it yields the empty list. -/
theorem filter_images_pure_spec :
    (∀ (objects : List Obj) (o : Obj),
        o ∈ filter_images objects ↔
          o ∈ objects ∧ ∃ ext ∈ image_extensions, endswith (lower o.Key) ext = true) ∧
    (∀ objects : List Obj, filter_images (filter_images objects) = filter_images objects) ∧
    filter_images [] = [] := by
  refine ⟨?_, ?_, rfl⟩
  · intro objects o
    simp [filter_images, isImageKey, List.mem_filter, List.any_eq_true]
  · intro objects
    simp [filter_images, List.filter_filter]

theorem filter_images_pure_spec_witness :
    filter_images (filter_images [⟨"a.jpg", 1⟩, ⟨"b.txt", 2⟩])
      = filter_images [⟨"a.jpg", 1⟩, ⟨"b.txt", 2⟩] ∧
    ((⟨"a.jpg", 1⟩ : Obj) ∈ filter_images [⟨"a.jpg", 1⟩, ⟨"b.txt", 2⟩] ↔
      (⟨"a.jpg", 1⟩ : Obj) ∈ [(⟨"a.jpg", 1⟩ : Obj), ⟨"b.txt", 2⟩] ∧
        ∃ ext ∈ image_extensions, endswith (lower "a.jpg") ext = true) :=
  ⟨filter_images_pure_spec.2.1 _, filter_images_pure_spec.1 _ _⟩

/-- C10: `filter_images` returns a subsequence of its input: every element
of the output occurs in the input and relative order is preserved.  Being a
pure function of the input list, it leaves the input itself unchanged. -/
theorem filter_images_subsequence (objects : List Obj) :
    List.Sublist (filter_images objects) objects :=
  List.filter_sublist objects

theorem filter_images_subsequence_witness :
    List.Sublist (filter_images [⟨"a.jpg", 1⟩, ⟨"b.txt", 2⟩])
      [(⟨"a.jpg", 1⟩ : Obj), ⟨"b.txt", 2⟩] :=
  filter_images_subsequence [⟨"a.jpg", 1⟩, ⟨"b.txt", 2⟩]
